import Mathlib

/-
Verification of the premium-app-javascript repository.

Shallow embedding of the source files:
  - app.js            (Express serving: lazy artifact loading, /predict handler)
  - train_and_serialize.js  (second half of app.js: preprocessing, split, scaler)
  - calibration_fit.js (embedded in README: two-variable least squares, shrinkage)

Modelling conventions:
  - JavaScript numbers are modelled as exact rationals; the offline standard
    scaler, whose standard deviation is a square root, is modelled over the
    reals.  A JavaScript NaN outcome is modelled as Option.none.
  - Request bodies are association lists from field names to JSON values.
  - The mutable module-level artifact cache is modelled by explicit state
    passing; file reads are counted explicitly so that caching is provable.
-/

namespace PremiumApp

/-- A JSON scalar value as produced by a parsed request body (express.json
gives numbers and strings for the fields this service reads). -/
inductive JSVal where
  | num (q : ℚ)
  | str (s : String)
  | nan
deriving DecidableEq

/-- A parsed request body or CSV record: an association list from field
names to values, first binding wins (JavaScript objects have unique keys). -/
def Row := List (String × JSVal)

instance : DecidableEq Row := by
  unfold Row
  infer_instance

/-- Membership test for a key, modelling the JavaScript `in` operator. -/
def hasKey (row : Row) (k : String) : Bool :=
  row.any (fun p => p.1 == k)

/-- Field access, modelling `row[k]`; `none` models `undefined`. -/
def lookupVal (row : Row) (k : String) : Option JSVal :=
  (row.find? (fun p => p.1 == k)).map Prod.snd

/-- Field assignment `row[k] = v`: replaces the binding if the key exists,
otherwise appends it. -/
def setVal : Row → String → JSVal → Row
  | [], k, v => [(k, v)]
  | p :: rest, k, v => if p.1 == k then (k, v) :: rest else p :: setVal rest k v

/-- Field removal, modelling `delete row[k]`. -/
def delKey (row : Row) (k : String) : Row :=
  row.filter (fun p => p.1 != k)

/-- JavaScript truthiness of a defined value: 0 and the empty string are
falsy, every other number or string is truthy. -/
def truthy : JSVal → Bool
  | .num q => if q = 0 then false else true
  | .str s => if s = "" then false else true
  | .nan => false

/-- The JavaScript expression `a || b` on possibly-undefined values:
returns the left value when it is defined and truthy, otherwise the right. -/
def jsOr (a b : Option JSVal) : Option JSVal :=
  match a with
  | some v => if truthy v then some v else b
  | none => b

/- ------------------------------------------------------------------
parseFloat model.  JavaScript parseFloat skips leading whitespace, accepts
an optional sign, then the longest prefix of the form digits [. digits]
[e|E [sign] digits], ignoring trailing garbage; it returns NaN when no
mantissa digit is found.  NaN is modelled as `none`.  (The special literal
Infinity, which has no rational value, is outside this model.)
------------------------------------------------------------------- -/

/-- Numeric value of one decimal digit character. -/
def digitVal (c : Char) : ℕ := c.toNat - 48

/-- Value of a digit string read as a natural number in base 10. -/
def natOfDigits (ds : List Char) : ℕ :=
  ds.foldl (fun n c => 10 * n + digitVal c) 0

/-- Value of a digit string read as a decimal fraction (digits after the
decimal point). -/
def fracOfDigits (ds : List Char) : ℚ :=
  (natOfDigits ds : ℚ) / (10 ^ ds.length : ℚ)

/-- Parses an optionally signed digit run, returning its integer value and
the unconsumed rest; fails when no digit follows. -/
def signedDigits (cs : List Char) : Option (ℤ × List Char) :=
  match cs with
  | '+' :: rest =>
    let ds := rest.takeWhile Char.isDigit
    if ds.isEmpty then none
    else some ((natOfDigits ds : ℤ), rest.dropWhile Char.isDigit)
  | '-' :: rest =>
    let ds := rest.takeWhile Char.isDigit
    if ds.isEmpty then none
    else some (-(natOfDigits ds : ℤ), rest.dropWhile Char.isDigit)
  | _ =>
    let ds := cs.takeWhile Char.isDigit
    if ds.isEmpty then none
    else some ((natOfDigits ds : ℤ), cs.dropWhile Char.isDigit)

/-- Parses the unsigned mantissa, digits with an optional decimal point;
at least one digit must be present on one side of the point. -/
def mantissa (cs : List Char) : Option (ℚ × List Char) :=
  let ds := cs.takeWhile Char.isDigit
  let rest := cs.dropWhile Char.isDigit
  match rest with
  | '.' :: rest2 =>
    let fs := rest2.takeWhile Char.isDigit
    let rest3 := rest2.dropWhile Char.isDigit
    if ds.isEmpty ∧ fs.isEmpty then none
    else some ((natOfDigits ds : ℚ) + fracOfDigits fs, rest3)
  | _ => if ds.isEmpty then none else some ((natOfDigits ds : ℚ), rest)

/-- Parses an optional exponent marker after the mantissa; an incomplete
exponent is ignored, as parseFloat ignores trailing garbage. -/
def expPart (cs : List Char) : ℤ × List Char :=
  match cs with
  | c :: rest =>
    if c = 'e' ∨ c = 'E' then
      match signedDigits rest with
      | some (e, rest2) => (e, rest2)
      | none => (0, c :: rest)
    else (0, c :: rest)
  | [] => (0, [])

/-- Mantissa followed by an optional exponent. -/
def mantissaExp (cs : List Char) : Option ℚ :=
  match mantissa cs with
  | some (m, rest) => some (m * (10 : ℚ) ^ (expPart rest).1)
  | none => none

/-- parseFloat on the character list of a string. -/
def parseFloatChars (cs : List Char) : Option ℚ :=
  let cs1 := cs.dropWhile Char.isWhitespace
  match cs1 with
  | '-' :: rest => (mantissaExp rest).map Neg.neg
  | '+' :: rest => mantissaExp rest
  | _ => mantissaExp cs1

/-- parseFloat on a JSON value: a number parses to itself (parseFloat
stringifies and reparses a finite number, which is the identity), a string
is parsed by the grammar above; `none` models a NaN result. -/
def parseFloatJS : JSVal → Option ℚ
  | .num q => some q
  | .str s => parseFloatChars s.toList
  | .nan => none

/-- parseFloat on a possibly-undefined value; parseFloat(undefined) is NaN. -/
def parseFloatOpt (v : Option JSVal) : Option ℚ :=
  v.bind parseFloatJS

/- ------------------------------------------------------------------
Persisted artifacts and the serving pipeline (app.js).
------------------------------------------------------------------- -/

/-- The scaler artifact scaler.json: per-feature mean and standard
deviation, loaded verbatim. -/
structure Scaler where
  mean : List ℚ
  scale : List ℚ
deriving DecidableEq

/-- The model artifact: one dense linear unit, weight vector and bias
(the tfjs layers model predicts dot(weight, x) + bias). -/
structure Model where
  w : List ℚ
  b : ℚ
deriving DecidableEq

/-- The calibration artifact calib.json: y_cal = a * y + b. -/
structure Calib where
  a : ℚ
  b : ℚ
deriving DecidableEq

/-- Array.prototype.map with the element index as second callback
argument, with an explicit starting index for the recursion. -/
def jsMapIdxFrom (f : ℕ → α → β) : ℕ → List α → List β
  | _, [] => []
  | i, a :: l => f i a :: jsMapIdxFrom f (i + 1) l

/-- Array.prototype.map with the element index: X.map((val, i) => ...). -/
def jsMapIdx (f : ℕ → α → β) (l : List α) : List β :=
  jsMapIdxFrom f 0 l

/-- scaleFeatures from app.js: standardize X as (X - mean) / std,
elementwise with per-index scaler parameters. -/
def scaleFeatures (X : List ℚ) (sc : Scaler) : List ℚ :=
  jsMapIdx (fun i val => (val - sc.mean.getD i 0) / sc.scale.getD i 0) X

/-- The dense linear unit: dot(weight, scaled input) + bias. -/
def modelPredict (m : Model) (xs : List ℚ) : ℚ :=
  (m.w.zipWith (fun a x => a * x) xs).sum + m.b

/-- The raw (uncalibrated) model output for a feature vector. -/
def rawPrediction (m : Model) (sc : Scaler) (X : List ℚ) : ℚ :=
  modelPredict m (scaleFeatures X sc)

/-- Lines 148-153 of app.js: when a calibration object with fields a and b
is loaded, apply y_cal = a*y + b and floor at 0; otherwise pass through. -/
def applyCalib (cb : Option Calib) (pred : ℚ) : ℚ :=
  match cb with
  | some c => max 0 (c.a * pred + c.b)
  | none => pred

/-- Math.round: round half toward positive infinity. -/
def jsRound (q : ℚ) : ℤ := ⌊q + 1 / 2⌋

/-- Math.round(x * 100) / 100: round to two decimal places. -/
def round2 (q : ℚ) : ℚ := (jsRound (q * 100) : ℚ) / 100

/-- An HTTP response of the /predict route: 200 with the predicted
premium, 400 with an error message, or 500. -/
inductive Response where
  | ok (premium : ℚ)
  | badRequest (error : String)
  | serverError
deriving DecidableEq

/-- The base required keys of /predict. -/
def requiredBase : List String := ["Bedrooms", "Square Footage", "Age of Home"]

/-- The coverage value: prefer Coverage A, fall back to Property Value;
JavaScript `||` makes this a truthiness test, not a key-presence test. -/
def coverageVal (data : Row) : Option JSVal :=
  jsOr (lookupVal data "Coverage A") (lookupVal data "Property Value")

/-- Lines 103-107 of app.js: base keys are checked with `in`; the coverage
name is pushed when the `||` chain produced undefined. -/
def missingFields (data : Row) : List String :=
  let base := requiredBase.filter (fun k => !(hasKey data k))
  if coverageVal data = none then base ++ ["Coverage A (or Property Value)"] else base

/-- The /predict body after successful artifact loading (lines 98-160 of
app.js): validate presence, parse the four numbers, scale, predict, apply
the optional calibration with its zero floor, round to 2 decimals. -/
def predictCore (m : Model) (sc : Scaler) (cb : Option Calib) (data : Row) : Response :=
  let missing := missingFields data
  if missing = [] then
    match parseFloatOpt (lookupVal data "Bedrooms"),
          parseFloatOpt (lookupVal data "Square Footage"),
          parseFloatOpt (coverageVal data),
          parseFloatOpt (lookupVal data "Age of Home") with
    | some bedrooms, some sqft, some coverageA, some age =>
      let X := [bedrooms, sqft, coverageA, age]
      let Xs := scaleFeatures X sc
      let pred := modelPredict m Xs
      Response.ok (round2 (applyCalib cb pred))
    | _, _, _, _ => Response.badRequest "Invalid input types: Invalid number format"
  else Response.badRequest ("Missing fields: " ++ String.intercalate ", " missing)

/-- The files present on disk for this process; files never change during
a process lifetime in this model ("reload" is out of scope). -/
structure FS where
  modelFile : Option Model
  scalerFile : Option Scaler
  calibFile : Option Calib
deriving DecidableEq

/-- The module-level lazy cache (_model, _scaler, _calib of app.js);
none models null. -/
structure Cache where
  model : Option Model
  scaler : Option Scaler
  calib : Option Calib
deriving DecidableEq

/-- The cache at process start: all three variables null. -/
def emptyCache : Cache := ⟨none, none, none⟩

/-- File read attempts made while serving, per artifact file. -/
structure Reads where
  model : ℕ
  scaler : ℕ
  calib : ℕ
deriving DecidableEq

/-- loadModel: return the cached model, else read the file (one read
attempt); a missing file throws, modelled as none with the cache left
null. -/
def loadModelS (fs : FS) (c : Cache) : Option Model × Cache × ℕ :=
  match c.model with
  | some m => (some m, c, 0)
  | none =>
    match fs.modelFile with
    | some m => (some m, ⟨some m, c.scaler, c.calib⟩, 1)
    | none => (none, c, 1)

/-- loadScaler: same lazy pattern as loadModel. -/
def loadScalerS (fs : FS) (c : Cache) : Option Scaler × Cache × ℕ :=
  match c.scaler with
  | some s => (some s, c, 0)
  | none =>
    match fs.scalerFile with
    | some s => (some s, ⟨c.model, some s, c.calib⟩, 1)
    | none => (none, c, 1)

/-- loadCalibration: a failed read is caught and _calib stays null, so a
missing calibration file is non-fatal (and is re-attempted next request,
since null also means "not loaded yet"). -/
def loadCalibS (fs : FS) (c : Cache) : Option Calib × Cache × ℕ :=
  match c.calib with
  | some cb => (some cb, c, 0)
  | none =>
    match fs.calibFile with
    | some cb => (some cb, ⟨c.model, c.scaler, some cb⟩, 1)
    | none => (none, c, 1)

/-- The whole /predict route: the three awaits at the top run before any
validation; a throw from loadModel or loadScaler is caught by the outer
try and becomes a 500 response. -/
def predictHandler (fs : FS) (c : Cache) (data : Row) : Response × Cache × Reads :=
  match loadModelS fs c with
  | (none, c1, r1) => (Response.serverError, c1, ⟨r1, 0, 0⟩)
  | (some m, c1, r1) =>
    match loadScalerS fs c1 with
    | (none, c2, r2) => (Response.serverError, c2, ⟨r1, r2, 0⟩)
    | (some s, c2, r2) =>
      match loadCalibS fs c2 with
      | (cb, c3, r3) => (predictCore m s cb data, c3, ⟨r1, r2, r3⟩)

/-- Serve a sequence of requests in one process, threading the cache and
accumulating file read attempts. -/
def processAll (fs : FS) : Cache → List Row → List Response × Cache × Reads
  | c, [] => ([], c, ⟨0, 0, 0⟩)
  | c, d :: ds =>
    let h := predictHandler fs c d
    let rest := processAll fs h.2.1 ds
    (h.1 :: rest.1, rest.2.1,
     ⟨h.2.2.model + rest.2.2.model, h.2.2.scaler + rest.2.2.scaler, h.2.2.calib + rest.2.2.calib⟩)

/- ------------------------------------------------------------------
Offline preprocessing (train_and_serialize.js, preprocessData).
------------------------------------------------------------------- -/

/-- The Number() coercion applied by the subtraction operator to the body
of a numeric string: whole-string parse after trimming whitespace, empty
string is 0 (0x and Infinity literals are outside this model). -/
def numberBody (cs : List Char) : Option ℚ :=
  match mantissa cs with
  | some (m, rest) =>
    match expPart rest with
    | (e, rest2) => if rest2.isEmpty then some (m * (10 : ℚ) ^ e) else none
  | none => none

/-- Number() on a character list: trim both ends, empty is 0, optional
sign, then the whole rest must be a numeric literal. -/
def numberOfChars (cs : List Char) : Option ℚ :=
  let cs1 := cs.dropWhile Char.isWhitespace
  let cs2 := (cs1.reverse.dropWhile Char.isWhitespace).reverse
  if cs2.isEmpty then some 0
  else
    match cs2 with
    | '-' :: rest => (numberBody rest).map Neg.neg
    | '+' :: rest => numberBody rest
    | _ => numberBody cs2

/-- ToNumber on a JSON value, as used by the `-` operator; `none` models
NaN. -/
def jsToNumber : JSVal → Option ℚ
  | .num q => some q
  | .str s => numberOfChars s.toList
  | .nan => none

/-- The value 2025 - v computed by the age derivation, with numeric
coercion of v. -/
def subFrom2025 (v : JSVal) : JSVal :=
  match jsToNumber v with
  | some q => .num (2025 - q)
  | none => .nan

/-- First preprocessing pass: remove the ZIP Code and Year columns. -/
def dropStep (row : Row) : Row :=
  delKey (delKey row "ZIP Code") "Year"

/-- Second preprocessing pass (lines 240-246 of the training script): when
Year Built is present and Age of Home absent, set Age of Home to
2025 - Year Built and delete Year Built; otherwise leave the row alone. -/
def ageStep (row : Row) : Row :=
  if hasKey row "Year Built" && !(hasKey row "Age of Home") then
    delKey (setVal row "Age of Home" (subFrom2025 ((lookupVal row "Year Built").getD JSVal.nan))) "Year Built"
  else row

/-- The fixed list of yes/no textual columns. -/
def ynCols : List String :=
  ["Has Swimming Pool", "Security System Installed", "Has Garage", "Has Basement"]

/-- One yes/no conversion: only string-typed values are converted, to 1
when the trimmed lowercase value is yes, else 0. -/
def ynOne (row : Row) (col : String) : Row :=
  match lookupVal row col with
  | some (.str s) => setVal row col (.num (if s.trim.toLower = "yes" then 1 else 0))
  | _ => row

/-- Third preprocessing pass: convert every yes/no column. -/
def ynStep (row : Row) : Row :=
  ynCols.foldl ynOne row

/-- preprocessData on one record: the three passes in source order. -/
def preprocessRow (row : Row) : Row :=
  ynStep (ageStep (dropStep row))

/-- preprocessData from train_and_serialize.js. -/
def preprocessData (df : List Row) : List Row :=
  df.map preprocessRow

/- ------------------------------------------------------------------
Deterministic train/test split (train_and_serialize.js).
------------------------------------------------------------------- -/

/-- One step of the seeded generator: rng = (rng * 9301 + 49297) % 233280;
seededRandom returns rng / 233280 after this update. -/
def lcgNext (r : ℕ) : ℕ := (r * 9301 + 49297) % 233280

/-- The destructuring swap [a[i], a[j]] = [a[j], a[i]] on a list. -/
def fyStep (l : List ℕ) (i j : ℕ) : List ℕ :=
  (l.set i (l.getD j 0)).set j (l.getD i 0)

/-- The position drawn at loop index i: floor(seededRandom() * (i + 1))
where the generator state r has just been advanced. -/
def fyDraw (r i : ℕ) : ℕ := Nat.floor ((r : ℚ) / 233280 * (i + 1))

/-- One iteration of the Fisher-Yates loop body on the state (array,
generator): advance the generator, draw j, swap positions i and j. -/
def fyFold (st : List ℕ × ℕ) (i : ℕ) : List ℕ × ℕ :=
  (fyStep st.1 i (fyDraw (lcgNext st.2) i), lcgNext st.2)

/-- The shuffled index list of trainTestSplit: indices 0..n-1 permuted by
the seeded Fisher-Yates shuffle, whose loop runs i from n-1 down to 1. -/
def shuffleIndices (n seed : ℕ) : List ℕ :=
  ((((List.range n).drop 1).reverse).foldl fyFold (List.range n, seed)).1

/-- The index partition: the first floor(n * (1 - testSize)) shuffled
indices are the train segment, the rest the test segment. -/
def splitIndices (n : ℕ) (testSize : ℚ) (seed : ℕ) : List ℕ × List ℕ :=
  let idx := shuffleIndices n seed
  let splitIdx := Nat.floor ((n : ℚ) * (1 - testSize))
  (idx.take splitIdx, idx.drop splitIdx)

/-- The 4-way result of trainTestSplit. -/
structure SplitResult where
  xTrain : List (List ℚ)
  xTest : List (List ℚ)
  yTrain : List ℚ
  yTest : List ℚ
deriving DecidableEq

/-- trainTestSplit from train_and_serialize.js: map the two index
segments over the parallel feature and target sequences. -/
def trainTestSplit (X : List (List ℚ)) (y : List ℚ) (testSize : ℚ) (randomState : ℕ) : SplitResult :=
  let p := splitIndices X.length testSize randomState
  ⟨p.1.map (fun i => X.getD i []), p.2.map (fun i => X.getD i []),
   p.1.map (fun i => y.getD i 0), p.2.map (fun i => y.getD i 0)⟩

/- ------------------------------------------------------------------
Standard scaler fit (train_and_serialize.js, standardScaler), over the
reals since the standard deviation is a square root.
------------------------------------------------------------------- -/

/-- Per-column sum over the training rows. -/
noncomputable def ssColSum (X : List (List ℝ)) (j : ℕ) : ℝ :=
  (X.map (fun r => r.getD j 0)).sum

/-- Per-column arithmetic mean, divisor the number of rows. -/
noncomputable def ssColMean (X : List (List ℝ)) (j : ℕ) : ℝ :=
  ssColSum X j / X.length

/-- Per-column population variance: mean squared deviation, divisor n. -/
noncomputable def ssColVar (X : List (List ℝ)) (j : ℕ) : ℝ :=
  (X.map (fun r => (r.getD j 0 - ssColMean X j) ^ 2)).sum / X.length

/-- Per-column population standard deviation: std = sqrt(sumSq / n). -/
noncomputable def ssColStd (X : List (List ℝ)) (j : ℕ) : ℝ :=
  Real.sqrt (ssColVar X j)

/-- The transform closure of standardScaler on one row:
row.map((val, j) => (val - mean[j]) / std[j]). -/
noncomputable def ssTransformRow (X : List (List ℝ)) (r : List ℝ) : List ℝ :=
  jsMapIdx (fun j val => (val - ssColMean X j) / ssColStd X j) r

/-- The transform closure applied to a whole matrix. -/
noncomputable def ssTransform (X rows : List (List ℝ)) : List (List ℝ) :=
  rows.map (ssTransformRow X)

/-- The row of per-column means of the fitting matrix. -/
noncomputable def ssMeanRow (X : List (List ℝ)) (d : ℕ) : List ℝ :=
  (List.range d).map (ssColMean X)

/- ------------------------------------------------------------------
Calibration fit (calibration_fit.js).
------------------------------------------------------------------- -/

/-- linearRegression from calibration_fit.js: closed-form two-variable
least squares.  The returned slope is (sumXY - n*meanX*meanY) divided by
(sumX2 - n*meanX^2); when that denominator is zero (zero-variance X) the
numerator is zero as well, so the JavaScript division produces NaN,
modelled here as `none`.  The script indexes y by positions of X,
assuming parallel arrays of equal length as its caller guarantees. -/
def linearRegression (X y : List ℚ) : Option (ℚ × ℚ) :=
  let n : ℚ := X.length
  let sumX := X.sum
  let sumY := y.sum
  let sumXY := ((List.range X.length).map (fun i => X.getD i 0 * y.getD i 0)).sum
  let sumX2 := (X.map (fun x => x * x)).sum
  let meanX := sumX / n
  let meanY := sumY / n
  if sumX2 - n * meanX * meanX = 0 then none
  else
    let a := (sumXY - n * meanX * meanY) / (sumX2 - n * meanX * meanX)
    some (a, meanY - a * meanX)

/-- The shrinkage step of calibration_fit.js main: alpha = 0.3, blend the
fitted pair toward the identity transform (1, 0). -/
def calibShrink (p : ℚ × ℚ) : ℚ × ℚ :=
  let alpha : ℚ := 3 / 10
  ((1 - alpha) * p.1 + alpha * 1, (1 - alpha) * p.2 + alpha * 0)

/-- The calibration parameters persisted to calib.json: the raw fit
followed by shrinkage (NaN parameters propagate, modelled as none). -/
def calibFit (X y : List ℚ) : Option (ℚ × ℚ) :=
  (linearRegression X y).map calibShrink

/- ------------------------------------------------------------------
Occurrence test on character lists, used to state that an error message
does not mention a field name.
------------------------------------------------------------------- -/

/-- Whether the first list is an initial segment of the second. -/
def leadsWith : List Char → List Char → Bool
  | [], _ => true
  | _ :: _, [] => false
  | a :: as, b :: bs => a == b && leadsWith as bs

/-- Whether the first list occurs contiguously anywhere in the second. -/
def hasRun (needle : List Char) : List Char → Bool
  | [] => leadsWith needle []
  | b :: t => leadsWith needle (b :: t) || hasRun needle t

/- ------------------------------------------------------------------
Basic lemmas about rows.
------------------------------------------------------------------- -/

theorem lookupVal_eq_none_of_hasKey_eq_false {row : Row} {k : String}
    (h : hasKey row k = false) : lookupVal row k = none := by
  unfold hasKey at h
  have hf : row.find? (fun p => p.1 == k) = none := by
    apply List.find?_eq_none.mpr
    intro p hp hk
    have hT : row.any (fun p => p.1 == k) = true := List.any_eq_true.mpr ⟨p, hp, hk⟩
    rw [h] at hT
    exact Bool.false_ne_true hT
  rw [lookupVal, hf]
  rfl

theorem hasKey_eq_true_of_lookupVal {row : Row} {k : String} {v : JSVal}
    (h : lookupVal row k = some v) : hasKey row k = true := by
  unfold lookupVal at h
  rcases hf : row.find? (fun p => p.1 == k) with _ | p
  · rw [hf] at h
    simp at h
  · have hmem := List.mem_of_find?_eq_some hf
    have hpk := List.find?_some hf
    exact List.any_eq_true.mpr ⟨p, hmem, hpk⟩

theorem lookupVal_setVal_self (row : Row) (k : String) (v : JSVal) :
    lookupVal (setVal row k v) k = some v := by
  induction row with
  | nil => simp [setVal, lookupVal]
  | cons p rest ih =>
    by_cases h : p.1 == k
    · simp [setVal, h, lookupVal]
    · simpa [setVal, h, lookupVal, List.find?] using ih

theorem lookupVal_delKey_ne (row : Row) (k k2 : String) (h : k ≠ k2) :
    lookupVal (delKey row k2) k = lookupVal row k := by
  induction row with
  | nil => rfl
  | cons p rest ih =>
    by_cases hp : p.1 = k2
    · have hstep : delKey (p :: rest) k2 = delKey rest k2 := by
        simp [delKey, List.filter_cons, hp]
      have hpk : (p.1 == k) = false := by
        simp only [beq_eq_false_iff_ne, hp]
        exact fun hh => h hh.symm
      rw [hstep, ih]
      simp [lookupVal, List.find?_cons, hpk]
    · have hstep : delKey (p :: rest) k2 = p :: delKey rest k2 := by
        simp [delKey, List.filter_cons, hp]
      rw [hstep]
      cases hk : (p.1 == k) with
      | true => simp [lookupVal, List.find?_cons, hk]
      | false =>
        simp only [lookupVal, List.find?_cons, hk]
        exact ih

theorem hasKey_delKey_self (row : Row) (k : String) :
    hasKey (delKey row k) k = false := by
  rw [hasKey, List.any_eq_false]
  intro p hp
  have := (List.mem_filter.mp hp).2
  simpa using this

/- ------------------------------------------------------------------
Reduction lemmas for the /predict route.
------------------------------------------------------------------- -/

theorem predictCore_missing (m : Model) (sc : Scaler) (cb : Option Calib) (data : Row)
    (h : missingFields data ≠ []) :
    predictCore m sc cb data
      = Response.badRequest ("Missing fields: " ++ String.intercalate ", " (missingFields data)) := by
  rw [predictCore]
  simp only [if_neg h]

theorem predictCore_valid (m : Model) (sc : Scaler) (cb : Option Calib) (data : Row)
    (bed sqft cov age : ℚ)
    (hmiss : missingFields data = [])
    (hb : parseFloatOpt (lookupVal data "Bedrooms") = some bed)
    (hsq : parseFloatOpt (lookupVal data "Square Footage") = some sqft)
    (hcv : parseFloatOpt (coverageVal data) = some cov)
    (hag : parseFloatOpt (lookupVal data "Age of Home") = some age) :
    predictCore m sc cb data
      = Response.ok (round2 (applyCalib cb (rawPrediction m sc [bed, sqft, cov, age]))) := by
  simp [predictCore, hmiss, hb, hsq, hcv, hag, rawPrediction]

theorem predictHandler_empty (fs : FS) (d : Row) (m : Model) (s : Scaler)
    (hm : fs.modelFile = some m) (hs : fs.scalerFile = some s) :
    (predictHandler fs emptyCache d).1 = predictCore m s fs.calibFile d := by
  cases hc : fs.calibFile <;>
    simp [predictHandler, loadModelS, loadScalerS, loadCalibS, emptyCache, hm, hs, hc]

/- ------------------------------------------------------------------
Concrete fixtures used by the witnesses.
------------------------------------------------------------------- -/

/-- A concrete model artifact. -/
def mW : Model := ⟨[100, 200, 50, 10], 1000⟩

/-- A concrete scaler artifact. -/
def scW : Scaler := ⟨[3, 1500, 200000, 20], [1, 500, 100000, 10]⟩

/-- Disk with model and scaler but no calibration file. -/
def fsW : FS := ⟨some mW, some scW, none⟩

/-- Disk with model, scaler and a calibration whose output is negative on
the sample request. -/
def fsWc : FS := ⟨some mW, some scW, some ⟨1, -100000⟩⟩

/-- A fully valid request body. -/
def dataW : Row :=
  [("Bedrooms", .num 3), ("Square Footage", .num 2000),
   ("Coverage A", .num 250000), ("Age of Home", .num 15)]

/-- A request body with a non-numeric Bedrooms value. -/
def rowBad : Row :=
  [("Bedrooms", .str "three"), ("Square Footage", .num 2000),
   ("Coverage A", .num 250000), ("Age of Home", .num 15)]

/-- A request body missing three of the required fields. -/
def rowMiss : Row := [("Bedrooms", .num 3)]

theorem dataW_missing : missingFields dataW = [] := by
  simp [missingFields, dataW, requiredBase, coverageVal, lookupVal, hasKey, jsOr, truthy,
    List.find?]

theorem dataW_parses :
    parseFloatOpt (lookupVal dataW "Bedrooms") = some 3
    ∧ parseFloatOpt (lookupVal dataW "Square Footage") = some 2000
    ∧ parseFloatOpt (coverageVal dataW) = some 250000
    ∧ parseFloatOpt (lookupVal dataW "Age of Home") = some 15 := by
  refine ⟨?_, ?_, ?_, ?_⟩ <;>
    simp [parseFloatOpt, coverageVal, lookupVal, dataW, List.find?, parseFloatJS, jsOr, truthy]

theorem rawPrediction_dataW : rawPrediction mW scW [3, 2000, 250000, 15] = 1220 := by
  norm_num [rawPrediction, modelPredict, scaleFeatures, jsMapIdx, jsMapIdxFrom, mW, scW]

/- ------------------------------------------------------------------
Claim theorems.
------------------------------------------------------------------- -/

/-- C1: for every request that passes validation, if a calibration
artifact with fields a and b is loaded then the served premium is
max(0, a*rawPrediction + b) rounded to 2 decimals (so any calibrated
value below 0 is served as exactly 0), and if no calibration file is
present the served premium equals the raw model prediction rounded to 2
decimals with no flooring applied. -/
theorem clamp_applied_exactly_when_calibrated
    (fs : FS) (m : Model) (sc : Scaler) (data : Row) (bed sqft cov age : ℚ)
    (hm : fs.modelFile = some m) (hsc : fs.scalerFile = some sc)
    (hmiss : missingFields data = [])
    (hb : parseFloatOpt (lookupVal data "Bedrooms") = some bed)
    (hsq : parseFloatOpt (lookupVal data "Square Footage") = some sqft)
    (hcv : parseFloatOpt (coverageVal data) = some cov)
    (hag : parseFloatOpt (lookupVal data "Age of Home") = some age) :
    (∀ a b : ℚ, fs.calibFile = some ⟨a, b⟩ →
      (predictHandler fs emptyCache data).1
          = Response.ok (round2 (max 0 (a * rawPrediction m sc [bed, sqft, cov, age] + b)))
        ∧ (a * rawPrediction m sc [bed, sqft, cov, age] + b ≤ 0 →
            (predictHandler fs emptyCache data).1 = Response.ok 0))
    ∧ (fs.calibFile = none →
        (predictHandler fs emptyCache data).1
          = Response.ok (round2 (rawPrediction m sc [bed, sqft, cov, age]))) := by
  have hred := predictHandler_empty fs data m sc hm hsc
  constructor
  · intro a b hcal
    have hok := predictCore_valid m sc fs.calibFile data bed sqft cov age hmiss hb hsq hcv hag
    rw [hcal] at hok
    have hmax : applyCalib (some ⟨a, b⟩) (rawPrediction m sc [bed, sqft, cov, age])
        = max 0 (a * rawPrediction m sc [bed, sqft, cov, age] + b) := rfl
    constructor
    · rw [hred, hcal, hok, hmax]
    · intro hneg
      rw [hred, hcal, hok, hmax, max_eq_left hneg]
      norm_num [round2, jsRound]
  · intro hcal
    have hok := predictCore_valid m sc fs.calibFile data bed sqft cov age hmiss hb hsq hcv hag
    rw [hcal] at hok
    rw [hred, hcal, hok]
    rfl

/-- Witness for C1 at a concrete request: with the negative-output
calibration the served premium is exactly 0, and with no calibration file
it is the rounded raw prediction. -/
theorem clamp_applied_exactly_when_calibrated_witness :
    (predictHandler fsWc emptyCache dataW).1 = Response.ok 0
    ∧ (predictHandler fsW emptyCache dataW).1
        = Response.ok (round2 (rawPrediction mW scW [3, 2000, 250000, 15])) := by
  have h1 := clamp_applied_exactly_when_calibrated fsWc mW scW dataW 3 2000 250000 15
    rfl rfl dataW_missing dataW_parses.1 dataW_parses.2.1 dataW_parses.2.2.1 dataW_parses.2.2.2
  have h2 := clamp_applied_exactly_when_calibrated fsW mW scW dataW 3 2000 250000 15
    rfl rfl dataW_missing dataW_parses.1 dataW_parses.2.1 dataW_parses.2.2.1 dataW_parses.2.2.2
  refine ⟨(h1.1 1 (-100000) rfl).2 ?_, h2.2 rfl⟩
  rw [rawPrediction_dataW]
  norm_num

/-- C2: every /predict request missing required keys gets a 400 whose
error message is Missing fields: followed by the comma-joined names of
every missing field, not just the first, and no prediction is performed. -/
theorem missing_fields_all_listed
    (fs : FS) (m : Model) (sc : Scaler) (data : Row)
    (hm : fs.modelFile = some m) (hsc : fs.scalerFile = some sc)
    (habs : (∃ k ∈ requiredBase, hasKey data k = false)
      ∨ (hasKey data "Coverage A" = false ∧ hasKey data "Property Value" = false)) :
    (predictHandler fs emptyCache data).1
        = Response.badRequest ("Missing fields: " ++ String.intercalate ", " (missingFields data))
    ∧ (∀ k ∈ requiredBase, hasKey data k = false → k ∈ missingFields data)
    ∧ ((hasKey data "Coverage A" = false ∧ hasKey data "Property Value" = false) →
        "Coverage A (or Property Value)" ∈ missingFields data)
    ∧ (∀ q : ℚ, (predictHandler fs emptyCache data).1 ≠ Response.ok q) := by
  have hmemBase : ∀ k ∈ requiredBase, hasKey data k = false → k ∈ missingFields data := by
    intro k hk hkey
    have hmem : k ∈ requiredBase.filter (fun k => !(hasKey data k)) :=
      List.mem_filter.mpr ⟨hk, by simp [hkey]⟩
    unfold missingFields
    by_cases hcv : coverageVal data = none
    · rw [if_pos hcv]
      exact List.mem_append_left _ hmem
    · rw [if_neg hcv]
      exact hmem
  have hcov : (hasKey data "Coverage A" = false ∧ hasKey data "Property Value" = false) →
      "Coverage A (or Property Value)" ∈ missingFields data := by
    rintro ⟨h1, h2⟩
    have hcvnone : coverageVal data = none := by
      unfold coverageVal
      rw [lookupVal_eq_none_of_hasKey_eq_false h1, lookupVal_eq_none_of_hasKey_eq_false h2]
      rfl
    unfold missingFields
    rw [if_pos hcvnone]
    exact List.mem_append_right _ (by simp)
  have hne : missingFields data ≠ [] := by
    rcases habs with ⟨k, hk, hkey⟩ | hcc
    · exact List.ne_nil_of_mem (hmemBase k hk hkey)
    · exact List.ne_nil_of_mem (hcov hcc)
  have hred := predictHandler_empty fs data m sc hm hsc
  have hbad := predictCore_missing m sc fs.calibFile data hne
  refine ⟨by rw [hred, hbad], hmemBase, hcov, ?_⟩
  intro q hcontra
  rw [hred, hbad] at hcontra
  exact Response.noConfusion hcontra

/-- Witness for C2: a request supplying only Bedrooms is answered 400
with all three missing names in one message. -/
theorem missing_fields_all_listed_witness :
    (predictHandler fsW emptyCache rowMiss).1
        = Response.badRequest "Missing fields: Square Footage, Age of Home, Coverage A (or Property Value)"
    ∧ "Square Footage" ∈ missingFields rowMiss
    ∧ "Age of Home" ∈ missingFields rowMiss
    ∧ "Coverage A (or Property Value)" ∈ missingFields rowMiss := by
  have h := missing_fields_all_listed fsW mW scW rowMiss rfl rfl
    (Or.inl ⟨"Square Footage", by simp [requiredBase], by simp [hasKey, rowMiss]⟩)
  have hmf : missingFields rowMiss
      = ["Square Footage", "Age of Home", "Coverage A (or Property Value)"] := by
    simp [missingFields, rowMiss, requiredBase, coverageVal, lookupVal, hasKey, jsOr, List.find?]
  refine ⟨?_, ?_, ?_, ?_⟩
  · rw [h.1, hmf]
    rfl
  · exact h.2.1 _ (by simp [requiredBase]) (by simp [hasKey, rowMiss])
  · exact h.2.1 _ (by simp [requiredBase]) (by simp [hasKey, rowMiss])
  · exact h.2.2.1 ⟨by simp [hasKey, rowMiss], by simp [hasKey, rowMiss]⟩

/-- C3 counterexample: on a request whose Bedrooms value is the string
three, the 400 message is the fixed text Invalid input types: Invalid
number format, which does not name the offending field Bedrooms anywhere
in the message. -/
theorem invalid_types_message_names_no_field :
    (predictHandler fsW emptyCache rowBad).1
        = Response.badRequest "Invalid input types: Invalid number format"
    ∧ hasRun "Bedrooms".toList "Invalid input types: Invalid number format".toList = false := by
  constructor
  · rw [predictHandler_empty fsW rowBad mW scW rfl rfl]
    have hcb : fsW.calibFile = none := rfl
    rw [hcb]
    have hparse : parseFloatOpt (lookupVal rowBad "Bedrooms") = none := by
      simp [parseFloatOpt, lookupVal, rowBad, List.find?, parseFloatJS, parseFloatChars,
        mantissaExp, mantissa, List.takeWhile, List.dropWhile]
    have hmiss : missingFields rowBad = [] := by
      simp [missingFields, rowBad, requiredBase, coverageVal, lookupVal, hasKey, jsOr, truthy,
        List.find?]
    simp [predictCore, hmiss, hparse]
  · decide

/-- C3 (amended): with all required keys present but some required value
failing to parse as a number, the service answers 400 with the fixed
message Invalid input types: Invalid number format (the offending field
is not named), and the request is never predicted on. -/
theorem invalid_types_rejected
    (fs : FS) (m : Model) (sc : Scaler) (data : Row)
    (hm : fs.modelFile = some m) (hsc : fs.scalerFile = some sc)
    (hmiss : missingFields data = [])
    (hbad : parseFloatOpt (lookupVal data "Bedrooms") = none
      ∨ parseFloatOpt (lookupVal data "Square Footage") = none
      ∨ parseFloatOpt (coverageVal data) = none
      ∨ parseFloatOpt (lookupVal data "Age of Home") = none) :
    (predictHandler fs emptyCache data).1
        = Response.badRequest "Invalid input types: Invalid number format"
    ∧ (∀ q : ℚ, (predictHandler fs emptyCache data).1 ≠ Response.ok q) := by
  have hred := predictHandler_empty fs data m sc hm hsc
  have hcore : predictCore m sc fs.calibFile data
      = Response.badRequest "Invalid input types: Invalid number format" := by
    rw [predictCore]
    simp only [hmiss, if_pos]
    rcases h1 : parseFloatOpt (lookupVal data "Bedrooms") with _ | v1 <;>
      rcases h2 : parseFloatOpt (lookupVal data "Square Footage") with _ | v2 <;>
        rcases h3 : parseFloatOpt (coverageVal data) with _ | v3 <;>
          rcases h4 : parseFloatOpt (lookupVal data "Age of Home") with _ | v4 <;>
            simp_all
  constructor
  · rw [hred, hcore]
  · intro q hcontra
    rw [hred, hcore] at hcontra
    exact Response.noConfusion hcontra

/-- Witness for the amended C3 at the concrete non-numeric request. -/
theorem invalid_types_rejected_witness :
    (predictHandler fsW emptyCache rowBad).1
        = Response.badRequest "Invalid input types: Invalid number format"
    ∧ (predictHandler fsW emptyCache rowBad).1 ≠ Response.ok 42 := by
  have h := invalid_types_rejected fsW mW scW rowBad rfl rfl
    (by simp [missingFields, rowBad, requiredBase, coverageVal, lookupVal, hasKey, jsOr, truthy,
      List.find?])
    (Or.inl (by simp [parseFloatOpt, lookupVal, rowBad, List.find?, parseFloatJS,
      parseFloatChars, mantissaExp, mantissa, List.takeWhile, List.dropWhile]))
  exact ⟨h.1, h.2 42⟩

/-- A request with the four keys present but with Coverage A equal to 0. -/
def rowCov0 (b s a : ℚ) : Row :=
  [("Bedrooms", .num b), ("Square Footage", .num s), ("Age of Home", .num a),
   ("Coverage A", .num 0)]

/-- The same request with an additional Property Value field. -/
def rowCov0PV (b s a pv : ℚ) : Row :=
  [("Bedrooms", .num b), ("Square Footage", .num s), ("Age of Home", .num a),
   ("Coverage A", .num 0), ("Property Value", .num pv)]

/-- C10: the coverage fallback is decided by truthiness, not key
presence: Coverage A of 0 with no Property Value is rejected as a missing
coverage field even though the key is present with a numeric value, and
Coverage A of 0 with a nonzero Property Value is predicted on the
Property Value amount instead of the supplied Coverage A. -/
theorem coverage_fallback_by_truthiness
    (fs : FS) (m : Model) (sc : Scaler) (b s a : ℚ)
    (hm : fs.modelFile = some m) (hsc : fs.scalerFile = some sc) :
    (predictHandler fs emptyCache (rowCov0 b s a)).1
        = Response.badRequest "Missing fields: Coverage A (or Property Value)"
    ∧ (∀ pv : ℚ, pv ≠ 0 →
        (predictHandler fs emptyCache (rowCov0PV b s a pv)).1
          = Response.ok (round2 (applyCalib fs.calibFile (rawPrediction m sc [b, s, pv, a])))) := by
  constructor
  · rw [predictHandler_empty fs (rowCov0 b s a) m sc hm hsc]
    have hne : missingFields (rowCov0 b s a) = ["Coverage A (or Property Value)"] := by
      simp [missingFields, rowCov0, requiredBase, coverageVal, lookupVal, hasKey, jsOr, truthy,
        List.find?]
    rw [predictCore_missing m sc fs.calibFile _ (by rw [hne]; exact List.cons_ne_nil _ _), hne]
    rfl
  · intro pv hpv
    rw [predictHandler_empty fs (rowCov0PV b s a pv) m sc hm hsc]
    have hcv : coverageVal (rowCov0PV b s a pv) = some (.num pv) := by
      simp [coverageVal, rowCov0PV, rowCov0, lookupVal, jsOr, truthy, List.find?, hpv]
    apply predictCore_valid
    · simp [missingFields, rowCov0PV, rowCov0, requiredBase, coverageVal, lookupVal, hasKey,
        jsOr, truthy, List.find?, hpv]
    · simp [parseFloatOpt, lookupVal, rowCov0PV, rowCov0, List.find?, parseFloatJS]
    · simp [parseFloatOpt, lookupVal, rowCov0PV, rowCov0, List.find?, parseFloatJS]
    · rw [hcv]
      rfl
    · simp [parseFloatOpt, lookupVal, rowCov0PV, rowCov0, List.find?, parseFloatJS]

/-- Witness for C10 at concrete numbers: Coverage A 0 alone is a 400,
and with Property Value 300000 the prediction uses 300000 as coverage. -/
theorem coverage_fallback_by_truthiness_witness :
    (predictHandler fsW emptyCache (rowCov0 3 2000 15)).1
        = Response.badRequest "Missing fields: Coverage A (or Property Value)"
    ∧ (predictHandler fsW emptyCache (rowCov0PV 3 2000 15 300000)).1
        = Response.ok (round2 (applyCalib fsW.calibFile (rawPrediction mW scW [3, 2000, 300000, 15]))) := by
  have h := coverage_fallback_by_truthiness fsW mW scW 3 2000 15 rfl rfl
  exact ⟨h.1, h.2 300000 (by norm_num)⟩

/-- C4 (evaluation of the code at the failing input): on zero-variance
raw predictions the closed-form fit has a zero denominator, so the
division produces NaN (modelled as none) and the NaN propagates into the
shrunk calibration parameters; no explicit error is raised. -/
theorem linearRegression_degenerate_nan :
    linearRegression [1, 1, 1] [1, 2, 3] = none
    ∧ calibFit [1, 1, 1] [1, 2, 3] = none := by
  have h : linearRegression [1, 1, 1] [1, 2, 3] = none := by
    rw [linearRegression]
    norm_num
  exact ⟨h, by rw [calibFit, h]; rfl⟩

/-- C5: whenever the raw two-variable least-squares fit yields (a, b),
the persisted calibration parameters are 0.7*a + 0.3 and 0.7*b, the
blend of the fit toward the identity transform (1, 0) with weight 0.3. -/
theorem calibration_shrinkage
    (X y : List ℚ) (a b : ℚ) (h : linearRegression X y = some (a, b)) :
    calibFit X y = some (7 / 10 * a + 3 / 10, 7 / 10 * b) := by
  rw [calibFit, h]
  show some (calibShrink (a, b)) = _
  rw [calibShrink]
  norm_num

/-- Witness for C5 at a concrete fit: the raw fit of [1,2,3] against
[2,4,6] is (2, 0), and the persisted calibration is (1.7, 0). -/
theorem calibration_shrinkage_witness :
    linearRegression [1, 2, 3] [2, 4, 6] = some (2, 0)
    ∧ calibFit [1, 2, 3] [2, 4, 6] = some (7 / 10 * 2 + 3 / 10, 7 / 10 * 0) := by
  have h : linearRegression [1, 2, 3] [2, 4, 6] = some (2, 0) := by
    rw [linearRegression]
    norm_num [List.range_succ]
  exact ⟨h, calibration_shrinkage [1, 2, 3] [2, 4, 6] 2 0 h⟩

/-- A raw record with a build year and no age field. -/
def rowY : Row := [("Year Built", .num 2005), ("Bedrooms", .num 4)]

/-- A raw record that already has an age field (and a build year). -/
def rowA : Row := [("Age of Home", .num 10), ("Year Built", .num 2000)]

/-- C9: a record with Year Built and no Age of Home gets Age of Home set
to 2025 - Year Built and loses the Year Built field; a record already
holding Age of Home is left unchanged by this step. -/
theorem age_derived_from_fixed_year (row : Row) :
    (∀ yb : ℚ, lookupVal row "Year Built" = some (.num yb) →
      hasKey row "Age of Home" = false →
        ageStep row = delKey (setVal row "Age of Home" (.num (2025 - yb))) "Year Built"
        ∧ lookupVal (ageStep row) "Age of Home" = some (.num (2025 - yb))
        ∧ hasKey (ageStep row) "Year Built" = false)
    ∧ (hasKey row "Age of Home" = true → ageStep row = row) := by
  constructor
  · intro yb hyb hnoage
    have hyk : hasKey row "Year Built" = true := hasKey_eq_true_of_lookupVal hyb
    have hval : subFrom2025 ((lookupVal row "Year Built").getD JSVal.nan) = .num (2025 - yb) := by
      rw [hyb]
      rfl
    have hstep : ageStep row = delKey (setVal row "Age of Home" (.num (2025 - yb))) "Year Built" := by
      rw [ageStep, if_pos (by rw [hyk, hnoage]; rfl), hval]
    refine ⟨hstep, ?_, ?_⟩
    · rw [hstep, lookupVal_delKey_ne _ _ _ (by decide), lookupVal_setVal_self]
    · rw [hstep]
      exact hasKey_delKey_self _ _
  · intro hage
    rw [ageStep, if_neg]
    rw [hage]
    simp

/-- Witness for C9 at two concrete records: one derives age 20 and drops
the build year, the other is untouched. -/
theorem age_derived_from_fixed_year_witness :
    (ageStep rowY = delKey (setVal rowY "Age of Home" (.num (2025 - 2005))) "Year Built"
      ∧ lookupVal (ageStep rowY) "Age of Home" = some (.num (2025 - 2005))
      ∧ hasKey (ageStep rowY) "Year Built" = false)
    ∧ ageStep rowA = rowA := by
  refine ⟨(age_derived_from_fixed_year rowY).1 2005 ?_ ?_, (age_derived_from_fixed_year rowA).2 ?_⟩
  · rfl
  · rfl
  · rfl

/- ------------------------------------------------------------------
The train/test split permutes the indices: Fisher-Yates lemmas.
------------------------------------------------------------------- -/

theorem cons_get_set_perm (t : List α) (m : ℕ) (a : α) (hm : m < t.length) :
    List.Perm (t[m] :: t.set m a) (a :: t) := by
  induction t generalizing m with
  | nil => exact absurd hm (by simp)
  | cons b t ih =>
    cases m with
    | zero =>
      simpa using List.Perm.swap a b t
    | succ m =>
      have hm2 : m < t.length := by simpa using hm
      simp only [List.getElem_cons_succ, List.set_cons_succ]
      have h1 : List.Perm (t[m] :: b :: t.set m a) (b :: t[m] :: t.set m a) :=
        List.Perm.swap b (t[m]) _
      have h2 : List.Perm (b :: t[m] :: t.set m a) (b :: a :: t) := (ih m hm2).cons b
      have h3 : List.Perm (b :: a :: t) (a :: b :: t) := List.Perm.swap a b t
      exact (h1.trans h2).trans h3

theorem set_set_swap_perm (l : List α) (i j : ℕ) (hi : i < l.length) (hj : j < l.length) :
    List.Perm ((l.set i l[j]).set j l[i]) l := by
  induction l generalizing i j with
  | nil => exact absurd hi (by simp)
  | cons b t ih =>
    cases i with
    | zero =>
      cases j with
      | zero => simp
      | succ j =>
        have hj2 : j < t.length := by simpa using hj
        simp only [List.getElem_cons_zero, List.getElem_cons_succ, List.set_cons_zero,
          List.set_cons_succ]
        exact cons_get_set_perm t j b hj2
    | succ i =>
      cases j with
      | zero =>
        have hi2 : i < t.length := by simpa using hi
        simp only [List.getElem_cons_zero, List.getElem_cons_succ, List.set_cons_zero,
          List.set_cons_succ]
        exact cons_get_set_perm t i b hi2
      | succ j =>
        have hi2 : i < t.length := by simpa using hi
        have hj2 : j < t.length := by simpa using hj
        simp only [List.getElem_cons_succ, List.set_cons_succ]
        exact (ih i j hi2 hj2).cons b

theorem fyStep_perm (l : List ℕ) (i j : ℕ) (hi : i < l.length) (hj : j < l.length) :
    List.Perm (fyStep l i j) l := by
  rw [fyStep, l.getD_eq_getElem 0 hj, l.getD_eq_getElem 0 hi]
  exact set_set_swap_perm l i j hi hj

theorem fyStep_length (l : List ℕ) (i j : ℕ) : (fyStep l i j).length = l.length := by
  simp [fyStep]

theorem lcgNext_lt (r : ℕ) : lcgNext r < 233280 :=
  Nat.mod_lt _ (by norm_num)

theorem fyDraw_le (r i : ℕ) (hr : r < 233280) : fyDraw r i ≤ i := by
  have h1 : (r : ℚ) / 233280 < 1 := by
    rw [div_lt_one (by norm_num)]
    exact_mod_cast hr
  have hnn : (0 : ℚ) ≤ (r : ℚ) / 233280 * (i + 1) := by positivity
  have h2 : (r : ℚ) / 233280 * (i + 1) < ((i + 1 : ℕ) : ℚ) := by
    have hpos : (0 : ℚ) < (i + 1 : ℚ) := by positivity
    calc (r : ℚ) / 233280 * (i + 1) < 1 * (i + 1 : ℚ) := mul_lt_mul_of_pos_right h1 hpos
      _ = ((i + 1 : ℕ) : ℚ) := by push_cast; ring
  have h3 : fyDraw r i < i + 1 := by
    rw [fyDraw, Nat.floor_lt hnn]
    exact h2
  omega

theorem fyFold_list_perm : ∀ (is : List ℕ) (st : List ℕ × ℕ),
    (∀ i ∈ is, i < st.1.length) →
    List.Perm (is.foldl fyFold st).1 st.1 ∧ (is.foldl fyFold st).1.length = st.1.length := by
  intro is
  induction is with
  | nil =>
    intro st _
    exact ⟨List.Perm.refl _, rfl⟩
  | cons i is ih =>
    intro st h
    have hi : i < st.1.length := h i (by simp)
    have hj : fyDraw (lcgNext st.2) i < st.1.length :=
      lt_of_le_of_lt (fyDraw_le _ i (lcgNext_lt _)) hi
    have hlen : (fyFold st i).1.length = st.1.length := fyStep_length _ _ _
    have hrest : ∀ x ∈ is, x < (fyFold st i).1.length := by
      intro x hx
      rw [hlen]
      exact h x (List.mem_cons_of_mem _ hx)
    have ihr := ih (fyFold st i) hrest
    rw [List.foldl_cons]
    exact ⟨ihr.1.trans (fyStep_perm st.1 i _ hi hj), by rw [ihr.2, hlen]⟩

theorem shuffleIndices_perm (n s : ℕ) : List.Perm (shuffleIndices n s) (List.range n) := by
  rw [shuffleIndices]
  refine (fyFold_list_perm _ (List.range n, s) ?_).1
  intro i hi
  have hmem : i ∈ List.range n := List.drop_subset _ _ (List.mem_reverse.mp hi)
  simpa using List.mem_range.mp hmem

theorem shuffleIndices_length (n s : ℕ) : (shuffleIndices n s).length = n := by
  rw [shuffleIndices]
  have h := (fyFold_list_perm (((List.range n).drop 1).reverse) (List.range n, s) ?_).2
  · simpa using h
  · intro i hi
    have hmem : i ∈ List.range n := List.drop_subset _ _ (List.mem_reverse.mp hi)
    simpa using List.mem_range.mp hmem

theorem splitIdx_le (n : ℕ) (t : ℚ) (h0 : 0 ≤ t) (h1 : t ≤ 1) :
    Nat.floor ((n : ℚ) * (1 - t)) ≤ n := by
  have hle : (n : ℚ) * (1 - t) ≤ (n : ℚ) :=
    mul_le_of_le_one_right (by positivity) (by linarith)
  calc Nat.floor ((n : ℚ) * (1 - t)) ≤ Nat.floor ((n : ℚ)) := Nat.floor_le_floor hle
    _ = n := Nat.floor_natCast n

/-- C6: the split permutes the row indices with the seeded
linear-congruential Fisher-Yates shuffle, takes the first
floor(n * (1 - testFraction)) permuted indices as the train segment and
the remainder as the test segment, and is a deterministic function of
the inputs, fraction and seed. -/
theorem trainTestSplit_partition
    (X : List (List ℚ)) (y : List ℚ) (t : ℚ) (s : ℕ) (h0 : 0 ≤ t) (h1 : t ≤ 1) :
    ((splitIndices X.length t s).1 ++ (splitIndices X.length t s).2).Perm (List.range X.length)
    ∧ (splitIndices X.length t s).1 ++ (splitIndices X.length t s).2 = shuffleIndices X.length s
    ∧ (splitIndices X.length t s).1.length = Nat.floor ((X.length : ℚ) * (1 - t))
    ∧ trainTestSplit X y t s
        = ⟨(splitIndices X.length t s).1.map (fun i => X.getD i []),
           (splitIndices X.length t s).2.map (fun i => X.getD i []),
           (splitIndices X.length t s).1.map (fun i => y.getD i 0),
           (splitIndices X.length t s).2.map (fun i => y.getD i 0)⟩
    ∧ (∀ X2 y2 t2 s2, X2 = X → y2 = y → t2 = t → s2 = s →
        trainTestSplit X2 y2 t2 s2 = trainTestSplit X y t s) := by
  have happ : (splitIndices X.length t s).1 ++ (splitIndices X.length t s).2
      = shuffleIndices X.length s := by
    rw [splitIndices]
    exact List.take_append_drop _ _
  refine ⟨?_, happ, ?_, rfl, ?_⟩
  · rw [happ]
    exact shuffleIndices_perm _ _
  · rw [splitIndices]
    simp only [List.length_take]
    rw [shuffleIndices_length]
    exact min_eq_left (splitIdx_le X.length t h0 h1)
  · intro X2 y2 t2 s2 hX hy ht hs
    rw [hX, hy, ht, hs]

/-- A concrete feature matrix of five rows. -/
def X5 : List (List ℚ) := [[1], [2], [3], [4], [5]]

/-- A concrete target vector of five entries. -/
def y5 : List ℚ := [10, 20, 30, 40, 50]

/-- Witness for C6 at the default fraction 0.33 and seed 42 on five
rows. -/
theorem trainTestSplit_partition_witness :
    (0 : ℚ) ≤ 33 / 100 ∧ (33 : ℚ) / 100 ≤ 1
    ∧ ((splitIndices X5.length (33 / 100) 42).1
        ++ (splitIndices X5.length (33 / 100) 42).2).Perm (List.range X5.length)
    ∧ (splitIndices X5.length (33 / 100) 42).1.length
        = Nat.floor ((X5.length : ℚ) * (1 - 33 / 100)) := by
  have h := trainTestSplit_partition X5 y5 (33 / 100) 42 (by norm_num) (by norm_num)
  exact ⟨by norm_num, by norm_num, h.1, h.2.2.1⟩

/- ------------------------------------------------------------------
Scaler round-trip: access lemmas for indexed map and list sums.
------------------------------------------------------------------- -/

theorem jsMapIdxFrom_length (f : ℕ → α → β) :
    ∀ (s : ℕ) (l : List α), (jsMapIdxFrom f s l).length = l.length := by
  intro s l
  induction l generalizing s with
  | nil => rfl
  | cons a t ih => simp [jsMapIdxFrom, ih]

theorem jsMapIdx_length (f : ℕ → α → β) (l : List α) : (jsMapIdx f l).length = l.length :=
  jsMapIdxFrom_length f 0 l

theorem jsMapIdxFrom_getElem? (f : ℕ → α → β) :
    ∀ (s : ℕ) (l : List α) (j : ℕ), (jsMapIdxFrom f s l)[j]? = (l[j]?).map (f (s + j)) := by
  intro s l
  induction l generalizing s with
  | nil => intro j; simp [jsMapIdxFrom]
  | cons a t ih =>
    intro j
    cases j with
    | zero => simp [jsMapIdxFrom]
    | succ j =>
      have harith : s + 1 + j = s + (j + 1) := by omega
      rw [show jsMapIdxFrom f s (a :: t) = f s a :: jsMapIdxFrom f (s + 1) t from rfl,
        List.getElem?_cons_succ, List.getElem?_cons_succ, ih (s + 1) j, harith]

theorem jsMapIdx_getElem? (f : ℕ → α → β) (l : List α) (j : ℕ) :
    (jsMapIdx f l)[j]? = (l[j]?).map (f j) := by
  simpa using jsMapIdxFrom_getElem? f 0 l j

theorem jsMapIdx_getD (f : ℕ → α → β) (l : List α) (j : ℕ) (hlt : j < l.length)
    (a0 : α) (b0 : β) : (jsMapIdx f l).getD j b0 = f j (l.getD j a0) := by
  rw [List.getD_eq_getElem?_getD, List.getD_eq_getElem?_getD, jsMapIdx_getElem?,
    List.getElem?_eq_getElem hlt]
  rfl

theorem sum_map_div (l : List α) (f : α → ℝ) (c : ℝ) :
    (l.map (fun x => f x / c)).sum = (l.map f).sum / c := by
  induction l with
  | nil => simp
  | cons a t ih => simp [ih, div_add_div_same]

theorem sum_map_sub_const (l : List α) (f : α → ℝ) (m : ℝ) :
    (l.map (fun x => f x - m)).sum = (l.map f).sum - l.length * m := by
  induction l with
  | nil => simp
  | cons a t ih =>
    simp only [List.map_cons, List.sum_cons, List.length_cons, ih]
    push_cast
    ring

theorem ssColVar_nonneg (X : List (List ℝ)) (j : ℕ) : 0 ≤ ssColVar X j := by
  apply div_nonneg _ (Nat.cast_nonneg _)
  apply List.sum_nonneg
  intro x hx
  rcases List.mem_map.mp hx with ⟨r, _, rfl⟩
  exact sq_nonneg _

theorem ssColStd_ne_zero {X : List (List ℝ)} {j : ℕ} (h : ssColVar X j ≠ 0) :
    ssColStd X j ≠ 0 := by
  rw [ssColStd, Real.sqrt_ne_zero']
  exact lt_of_le_of_ne (ssColVar_nonneg X j) (Ne.symm h)

theorem ssColStd_sq {X : List (List ℝ)} {j : ℕ} : ssColStd X j ^ 2 = ssColVar X j := by
  rw [ssColStd]
  exact Real.sq_sqrt (ssColVar_nonneg X j)

theorem ssTransform_col (X : List (List ℝ)) (d j : ℕ) (hj : j < d)
    (hrows : ∀ r ∈ X, r.length = d) :
    (ssTransform X X).map (fun r => r.getD j 0)
      = X.map (fun r => (r.getD j 0 - ssColMean X j) / ssColStd X j) := by
  rw [ssTransform, List.map_map]
  apply List.map_congr_left
  intro r hr
  have hjr : j < r.length := by
    rw [hrows r hr]
    exact hj
  simp only [Function.comp]
  rw [ssTransformRow, jsMapIdx_getD _ _ _ hjr 0 0]

/-- C7: for every training feature matrix with no zero-variance column,
the fitted scaler (per-column mean, per-column population standard
deviation with divisor n) satisfies the round-trip property: transforming
the row of per-column means yields the zero vector, and the transformed
fitting set has per-column mean 0 and per-column variance 1. -/
theorem standardScaler_roundtrip
    (X : List (List ℝ)) (d : ℕ)
    (hne : X ≠ []) (hrows : ∀ r ∈ X, r.length = d)
    (hvar : ∀ j < d, ssColVar X j ≠ 0) :
    ssTransformRow X (ssMeanRow X d) = List.replicate d 0
    ∧ (∀ j < d, ssColMean (ssTransform X X) j = 0)
    ∧ (∀ j < d, ssColVar (ssTransform X X) j = 1) := by
  have hn0 : X.length ≠ 0 := fun h => hne (List.length_eq_zero.mp h)
  have hn : ((X.length : ℝ)) ≠ 0 := Nat.cast_ne_zero.mpr hn0
  have hTlen : (ssTransform X X).length = X.length := List.length_map _ _
  have hmean : ∀ j < d, ssColMean (ssTransform X X) j = 0 := by
    intro j hj
    rw [ssColMean, ssColSum, ssTransform_col X d j hj hrows, hTlen, sum_map_div,
      sum_map_sub_const]
    have hcancel : (X.length : ℝ) * ssColMean X j = (X.map (fun r => r.getD j 0)).sum := by
      rw [ssColMean, ssColSum]
      field_simp
    rw [hcancel, sub_self, zero_div, zero_div]
  refine ⟨?_, hmean, ?_⟩
  · have hlen1 : (ssTransformRow X (ssMeanRow X d)).length = d := by
      rw [ssTransformRow, jsMapIdx_length, ssMeanRow, List.length_map, List.length_range]
    refine List.eq_replicate_iff.mpr ⟨hlen1, ?_⟩
    intro b hb
    rcases List.mem_iff_getElem.mp hb with ⟨i, hlt, hbe⟩
    have hid : i < d := by
      rw [hlen1] at hlt
      exact hlt
    have hval : (ssTransformRow X (ssMeanRow X d))[i]?
        = some ((ssColMean X i - ssColMean X i) / ssColStd X i) := by
      rw [ssTransformRow, jsMapIdx_getElem?, ssMeanRow, List.getElem?_map,
        List.getElem?_range hid]
      rfl
    have hsome : (ssTransformRow X (ssMeanRow X d))[i]?
        = some ((ssTransformRow X (ssMeanRow X d))[i]) := List.getElem?_eq_getElem hlt
    rw [hsome] at hval
    rw [← hbe, Option.some_inj.mp hval, sub_self, zero_div]
  · intro j hj
    have hs := hvar j hj
    rw [ssColVar]
    have hcol2 : (ssTransform X X).map
          (fun r => (r.getD j 0 - ssColMean (ssTransform X X) j) ^ 2)
        = X.map (fun r => ((r.getD j 0 - ssColMean X j) / ssColStd X j) ^ 2) := by
      rw [hmean j hj, ssTransform, List.map_map]
      apply List.map_congr_left
      intro r hr
      have hjr : j < r.length := by
        rw [hrows r hr]
        exact hj
      simp only [Function.comp]
      rw [ssTransformRow, jsMapIdx_getD _ _ _ hjr 0 0, sub_zero]
    rw [hcol2, hTlen]
    have hpow : (fun r : List ℝ => ((r.getD j 0 - ssColMean X j) / ssColStd X j) ^ 2)
        = fun r : List ℝ => ((r.getD j 0 - ssColMean X j) ^ 2) / (ssColStd X j ^ 2) := by
      funext r
      rw [div_pow]
    rw [hpow, sum_map_div, div_right_comm,
      show (X.map (fun r => (r.getD j 0 - ssColMean X j) ^ 2)).sum / (X.length : ℝ)
        = ssColVar X j from rfl,
      ssColStd_sq]
    exact div_self hs

/-- A concrete two-row, two-column fitting matrix with unit variances. -/
def Xc : List (List ℝ) := [[0, 0], [2, 2]]

/-- Witness for C7 on the concrete matrix: both columns have mean 1 and
variance 1, and the round-trip identities hold. -/
theorem standardScaler_roundtrip_witness :
    Xc ≠ [] ∧ (∀ r ∈ Xc, r.length = 2) ∧ (∀ j < 2, ssColVar Xc j ≠ 0)
    ∧ ssTransformRow Xc (ssMeanRow Xc 2) = List.replicate 2 0
    ∧ (∀ j < 2, ssColMean (ssTransform Xc Xc) j = 0)
    ∧ (∀ j < 2, ssColVar (ssTransform Xc Xc) j = 1) := by
  have h1 : Xc ≠ [] := by simp [Xc]
  have h2 : ∀ r ∈ Xc, r.length = 2 := by
    intro r hr
    simp only [Xc, List.mem_cons, List.not_mem_nil, or_false] at hr
    rcases hr with rfl | rfl <;> rfl
  have h3 : ∀ j < 2, ssColVar Xc j ≠ 0 := by
    intro j hj
    interval_cases j <;>
      norm_num [ssColVar, ssColMean, ssColSum, Xc, List.getD_cons_zero, List.getD_cons_succ]
  have h := standardScaler_roundtrip Xc 2 h1 h2 h3
  exact ⟨h1, h2, h3, h.1, h.2.1, h.2.2⟩

/- ------------------------------------------------------------------
Artifact caching: how one request call treats the cache and the files.
------------------------------------------------------------------- -/

theorem handler_model_cached (fs : FS) (c : Cache) (d : Row) (m : Model) (h : c.model = some m) :
    (predictHandler fs c d).2.1.model = some m ∧ (predictHandler fs c d).2.2.model = 0 := by
  cases hcs : c.scaler <;> cases hfs2 : fs.scalerFile <;> cases hcc : c.calib <;>
    cases hfc : fs.calibFile <;>
      simp [predictHandler, loadModelS, loadScalerS, loadCalibS, h, hcs, hfs2, hcc, hfc]

theorem handler_model_filed (fs : FS) (c : Cache) (d : Row) (m : Model)
    (hc : c.model = none) (hf : fs.modelFile = some m) :
    (predictHandler fs c d).2.1.model = some m ∧ (predictHandler fs c d).2.2.model = 1 := by
  cases hcs : c.scaler <;> cases hfs2 : fs.scalerFile <;> cases hcc : c.calib <;>
    cases hfc : fs.calibFile <;>
      simp [predictHandler, loadModelS, loadScalerS, loadCalibS, hc, hf, hcs, hfs2, hcc, hfc]

theorem handler_model_absent (fs : FS) (c : Cache) (d : Row)
    (hc : c.model = none) (hf : fs.modelFile = none) :
    predictHandler fs c d = (Response.serverError, c, ⟨1, 0, 0⟩) := by
  simp [predictHandler, loadModelS, hc, hf]

theorem handler_scaler_cached (fs : FS) (c : Cache) (d : Row) (s : Scaler)
    (h : c.scaler = some s) :
    (predictHandler fs c d).2.1.scaler = some s ∧ (predictHandler fs c d).2.2.scaler = 0 := by
  cases hcm : c.model <;> cases hfm : fs.modelFile <;> cases hcc : c.calib <;>
    cases hfc : fs.calibFile <;>
      simp [predictHandler, loadModelS, loadScalerS, loadCalibS, h, hcm, hfm, hcc, hfc]

theorem handler_scaler_filed (fs : FS) (c : Cache) (d : Row) (s : Scaler)
    (hc : c.scaler = none) (hf : fs.scalerFile = some s)
    (hm : (∃ m, c.model = some m) ∨ (c.model = none ∧ ∃ m, fs.modelFile = some m)) :
    (predictHandler fs c d).2.1.scaler = some s ∧ (predictHandler fs c d).2.2.scaler = 1 := by
  rcases hm with ⟨m, hcm⟩ | ⟨hcm, m, hfm⟩
  · cases hcc : c.calib <;> cases hfc : fs.calibFile <;>
      simp [predictHandler, loadModelS, loadScalerS, loadCalibS, hc, hf, hcm, hcc, hfc]
  · cases hcc : c.calib <;> cases hfc : fs.calibFile <;>
      simp [predictHandler, loadModelS, loadScalerS, loadCalibS, hc, hf, hcm, hfm, hcc, hfc]

theorem handler_scaler_absent (fs : FS) (c : Cache) (d : Row)
    (hcs : c.scaler = none) (hfs : fs.scalerFile = none) :
    (predictHandler fs c d).1 = Response.serverError
    ∧ (predictHandler fs c d).2.1.scaler = none
    ∧ (predictHandler fs c d).2.1.calib = c.calib
    ∧ (predictHandler fs c d).2.2.scaler ≤ 1 := by
  cases hcm : c.model <;> cases hfm : fs.modelFile <;>
    simp [predictHandler, loadModelS, loadScalerS, loadCalibS, hcs, hfs, hcm, hfm]

theorem handler_calib_cached (fs : FS) (c : Cache) (d : Row) (cb : Calib)
    (h : c.calib = some cb) :
    (predictHandler fs c d).2.1.calib = some cb ∧ (predictHandler fs c d).2.2.calib = 0 := by
  cases hcm : c.model <;> cases hfm : fs.modelFile <;> cases hcs : c.scaler <;>
    cases hfs2 : fs.scalerFile <;>
      simp [predictHandler, loadModelS, loadScalerS, loadCalibS, h, hcm, hfm, hcs, hfs2]

theorem handler_calib_pending (fs : FS) (c : Cache) (d : Row) (cb : Calib)
    (hcc : c.calib = none) (hfc : fs.calibFile = some cb) :
    ((predictHandler fs c d).2.1.calib = some cb ∧ (predictHandler fs c d).2.2.calib = 1)
    ∨ ((predictHandler fs c d).2.1.calib = none ∧ (predictHandler fs c d).2.2.calib = 0) := by
  cases hcm : c.model <;> cases hfm : fs.modelFile <;> cases hcs : c.scaler <;>
    cases hfs2 : fs.scalerFile <;>
      simp [predictHandler, loadModelS, loadScalerS, loadCalibS, hcc, hfc, hcm, hfm, hcs, hfs2]

theorem handler_calib_absent (fs : FS) (c : Cache) (d : Row)
    (hcc : c.calib = none) (hfc : fs.calibFile = none) :
    (predictHandler fs c d).2.1.calib = none := by
  cases hcm : c.model <;> cases hfm : fs.modelFile <;> cases hcs : c.scaler <;>
    cases hfs2 : fs.scalerFile <;>
      simp [predictHandler, loadModelS, loadScalerS, loadCalibS, hcc, hfc, hcm, hfm, hcs, hfs2]

theorem handler_uncalibrated (fs : FS) (c : Cache) (d : Row) (m : Model) (s : Scaler)
    (hfm : fs.modelFile = some m) (hfs : fs.scalerFile = some s) (hfc : fs.calibFile = none)
    (hm : c.model = none ∨ c.model = some m) (hs : c.scaler = none ∨ c.scaler = some s)
    (hcc : c.calib = none) :
    (predictHandler fs c d).1 = predictCore m s none d
    ∧ (predictHandler fs c d).2.1 = ⟨some m, some s, none⟩ := by
  obtain ⟨cm, cs, cc⟩ := c
  rcases hm with hcm | hcm <;> rcases hs with hcs | hcs <;>
    simp_all [predictHandler, loadModelS, loadScalerS, loadCalibS, hfm, hfs, hfc]

theorem processAll_nil (fs : FS) (c : Cache) : processAll fs c [] = ([], c, ⟨0, 0, 0⟩) := rfl

theorem processAll_cons (fs : FS) (c : Cache) (d : Row) (ds : List Row) :
    processAll fs c (d :: ds)
      = ((predictHandler fs c d).1 :: (processAll fs (predictHandler fs c d).2.1 ds).1,
         (processAll fs (predictHandler fs c d).2.1 ds).2.1,
         ⟨(predictHandler fs c d).2.2.model
            + (processAll fs (predictHandler fs c d).2.1 ds).2.2.model,
          (predictHandler fs c d).2.2.scaler
            + (processAll fs (predictHandler fs c d).2.1 ds).2.2.scaler,
          (predictHandler fs c d).2.2.calib
            + (processAll fs (predictHandler fs c d).2.1 ds).2.2.calib⟩) := rfl

theorem processAll_model_zero (fs : FS) (m : Model) :
    ∀ (ds : List Row) (c : Cache), c.model = some m →
      (processAll fs c ds).2.2.model = 0 := by
  intro ds
  induction ds with
  | nil => intro c _; rfl
  | cons d ds ih =>
    intro c h
    have hh := handler_model_cached fs c d m h
    rw [processAll_cons]
    simp only []
    rw [hh.2, ih _ hh.1]

theorem processAll_model_le_one (fs : FS) (m : Model) (hf : fs.modelFile = some m) :
    ∀ (ds : List Row) (c : Cache), c.model = none →
      (processAll fs c ds).2.2.model ≤ 1 := by
  intro ds
  cases ds with
  | nil => intro c _; exact Nat.zero_le 1
  | cons d ds =>
    intro c h
    have hh := handler_model_filed fs c d m h hf
    rw [processAll_cons]
    simp only []
    rw [hh.2, processAll_model_zero fs m ds _ hh.1]

theorem processAll_scaler_zero (fs : FS) (s : Scaler) :
    ∀ (ds : List Row) (c : Cache), c.scaler = some s →
      (processAll fs c ds).2.2.scaler = 0 := by
  intro ds
  induction ds with
  | nil => intro c _; rfl
  | cons d ds ih =>
    intro c h
    have hh := handler_scaler_cached fs c d s h
    rw [processAll_cons]
    simp only []
    rw [hh.2, ih _ hh.1]

theorem processAll_scaler_le_one (fs : FS) (s : Scaler) (hf : fs.scalerFile = some s) :
    ∀ (ds : List Row) (c : Cache), c.scaler = none →
      (processAll fs c ds).2.2.scaler ≤ 1 := by
  intro ds
  induction ds with
  | nil => intro c _; exact Nat.zero_le 1
  | cons d ds ih =>
    intro c h
    rcases hcm : c.model with _ | m
    · rcases hfm : fs.modelFile with _ | m
      · have hh := handler_model_absent fs c d hcm hfm
        rw [processAll_cons, hh]
        simp only []
        rw [Nat.zero_add]
        exact ih c h
      · have hh := handler_scaler_filed fs c d s h hf (Or.inr ⟨hcm, m, hfm⟩)
        rw [processAll_cons]
        simp only []
        rw [hh.2, processAll_scaler_zero fs s ds _ hh.1]
    · have hh := handler_scaler_filed fs c d s h hf (Or.inl ⟨m, hcm⟩)
      rw [processAll_cons]
      simp only []
      rw [hh.2, processAll_scaler_zero fs s ds _ hh.1]

theorem processAll_calib_zero (fs : FS) (cb : Calib) :
    ∀ (ds : List Row) (c : Cache), c.calib = some cb →
      (processAll fs c ds).2.2.calib = 0 := by
  intro ds
  induction ds with
  | nil => intro c _; rfl
  | cons d ds ih =>
    intro c h
    have hh := handler_calib_cached fs c d cb h
    rw [processAll_cons]
    simp only []
    rw [hh.2, ih _ hh.1]

theorem processAll_calib_le_one (fs : FS) (cb : Calib) (hf : fs.calibFile = some cb) :
    ∀ (ds : List Row) (c : Cache), c.calib = none →
      (processAll fs c ds).2.2.calib ≤ 1 := by
  intro ds
  induction ds with
  | nil => intro c _; exact Nat.zero_le 1
  | cons d ds ih =>
    intro c h
    rcases handler_calib_pending fs c d cb h hf with ⟨hcache, hreads⟩ | ⟨hcache, hreads⟩
    · rw [processAll_cons]
      simp only []
      rw [hreads, processAll_calib_zero fs cb ds _ hcache]
    · rw [processAll_cons]
      simp only []
      rw [hreads, Nat.zero_add]
      exact ih _ hcache

theorem processAll_no_model (fs : FS) (hf : fs.modelFile = none) :
    ∀ (ds : List Row) (c : Cache), c.model = none →
      (processAll fs c ds).1 = ds.map (fun _ => Response.serverError) := by
  intro ds
  induction ds with
  | nil => intro c _; rfl
  | cons d ds ih =>
    intro c h
    have hh := handler_model_absent fs c d h hf
    rw [processAll_cons, hh]
    simp only [List.map_cons]
    rw [ih c h]

theorem processAll_no_scaler (fs : FS) (hf : fs.scalerFile = none) :
    ∀ (ds : List Row) (c : Cache), c.scaler = none →
      (processAll fs c ds).1 = ds.map (fun _ => Response.serverError) := by
  intro ds
  induction ds with
  | nil => intro c _; rfl
  | cons d ds ih =>
    intro c h
    have hh := handler_scaler_absent fs c d h hf
    rw [processAll_cons]
    simp only [List.map_cons]
    rw [hh.1, ih _ hh.2.1]

theorem processAll_uncalibrated (fs : FS) (m : Model) (s : Scaler)
    (hfm : fs.modelFile = some m) (hfs : fs.scalerFile = some s) (hfc : fs.calibFile = none) :
    ∀ (ds : List Row) (c : Cache),
      (c.model = none ∨ c.model = some m) → (c.scaler = none ∨ c.scaler = some s) →
      c.calib = none →
      (processAll fs c ds).1 = ds.map (predictCore m s none) := by
  intro ds
  induction ds with
  | nil => intro c _ _ _; rfl
  | cons d ds ih =>
    intro c hm hs hcc
    have hh := handler_uncalibrated fs c d m s hfm hfs hfc hm hs hcc
    rw [processAll_cons]
    simp only [List.map_cons]
    rw [hh.1, hh.2, ih _ (Or.inr rfl) (Or.inr rfl) rfl]

/-- C8: each artifact file that is present is read at most once per
process lifetime over any request sequence served from a fresh cache; a
missing model or scaler file makes every request an error response; a
missing calibration file is non-fatal and every request (with model and
scaler present) is served through the uncalibrated pipeline. -/
theorem artifacts_cached_once (fs : FS) (ds : List Row) :
    (∀ m, fs.modelFile = some m → (processAll fs emptyCache ds).2.2.model ≤ 1)
    ∧ (∀ s, fs.scalerFile = some s → (processAll fs emptyCache ds).2.2.scaler ≤ 1)
    ∧ (∀ cb, fs.calibFile = some cb → (processAll fs emptyCache ds).2.2.calib ≤ 1)
    ∧ (fs.modelFile = none ∨ fs.scalerFile = none →
        (processAll fs emptyCache ds).1 = ds.map (fun _ => Response.serverError))
    ∧ (∀ m s, fs.modelFile = some m → fs.scalerFile = some s → fs.calibFile = none →
        (processAll fs emptyCache ds).1 = ds.map (predictCore m s none)) := by
  refine ⟨?_, ?_, ?_, ?_, ?_⟩
  · intro m hm
    exact processAll_model_le_one fs m hm ds emptyCache rfl
  · intro s hs
    exact processAll_scaler_le_one fs s hs ds emptyCache rfl
  · intro cb hcb
    exact processAll_calib_le_one fs cb hcb ds emptyCache rfl
  · rintro (hm | hs)
    · exact processAll_no_model fs hm ds emptyCache rfl
    · exact processAll_no_scaler fs hs ds emptyCache rfl
  · intro m s hm hs hc
    exact processAll_uncalibrated fs m s hm hs hc ds emptyCache (Or.inl rfl) (Or.inl rfl) rfl

/-- Witness for C8: three requests against a disk holding all three
artifacts read each file at most once, and with no calibration file one
request is served by the uncalibrated pipeline. -/
theorem artifacts_cached_once_witness :
    (processAll fsWc emptyCache [dataW, dataW, dataW]).2.2.model ≤ 1
    ∧ (processAll fsWc emptyCache [dataW, dataW, dataW]).2.2.scaler ≤ 1
    ∧ (processAll fsWc emptyCache [dataW, dataW, dataW]).2.2.calib ≤ 1
    ∧ (processAll fsW emptyCache [dataW]).1 = [dataW].map (predictCore mW scW none) := by
  have h1 := artifacts_cached_once fsWc [dataW, dataW, dataW]
  have h2 := artifacts_cached_once fsW [dataW]
  exact ⟨h1.1 mW rfl, h1.2.1 scW rfl, h1.2.2.1 ⟨1, -100000⟩ rfl,
    h2.2.2.2.2 mW scW rfl rfl rfl⟩

end PremiumApp
